import Mathlib

/-!
Verification of the Phoenix solar-permit scraper (pheonix_permit_grab.py).

The development shallowly embeds the scraper's core: the record normalizer
(`_process_permit_data` with its date-decoding helper `_parse_date`) and the
paginated fetch loop (`fetch_permits_for_date_range`).  Python dictionary
values are modelled by the inductive `PyVal`; Python exceptions by the
`Except PyErr` monad; the HTTP transport (`_make_request`) by an abstract
function from a request payload to an optional parsed response envelope
(`Option Envelope`), where `Option.none` covers every failure branch the
source catches (transport error, bad HTTP status, undecodable JSON body).
The unbounded `while True` pagination loop is embedded as a fuel-indexed
recursion; every theorem quantifies over (or fixes) ample fuel.

CPython specifics that matter here and are modelled faithfully:
  - `str.strip(chars)` removes characters of the set from both ends;
  - `int(s)` accepts surrounding ASCII whitespace, one sign, and single
    underscores between digits;
  - `datetime.fromtimestamp(ms / 1000)` yields the local calendar date of
    `floor((ms + tzoff*1000) / 86400000)` days from the epoch (for the
    magnitudes where the call succeeds the float division cannot shift the
    calendar date), raises ValueError (caught by the scraper) when the local
    year falls outside 1..9999, and fails with an uncaught OSError once the
    local year leaves the C `tm_year` range on a 64-bit platform;
  - glibc `strftime` prints `%Y` without zero padding and `%m`, `%d`
    zero-padded to two digits;
  - calling `.startswith` on a non-string raises an uncaught AttributeError.
The local timezone is an explicit parameter `tzoff` (offset east of UTC in
seconds).  `time.sleep` has no observable effect on results and is not
modelled.
-/

/-- Python values as they occur in this program's records. -/
inductive PyVal where
  | none
  | int (n : Int)
  | str (s : String)
  | bool (b : Bool)
deriving DecidableEq, Repr

/-- A raw permit record: a JSON object, i.e. a finite string-keyed mapping
(association list with distinct keys). -/
abbrev RawRecord := List (String × PyVal)

/-- A normalized permit record as built by `_process_permit_data`:
a Python dict, keys in insertion order. -/
abbrev NRec := List (String × PyVal)

/-- Python `d.get(k)` with default `None`. -/
def pyGet (p : RawRecord) (k : String) : PyVal :=
  match p.find? (fun kv => kv.1 == k) with
  | Option.some kv => kv.2
  | Option.none => PyVal.none

/-- Python truthiness of the modelled values. -/
def pyTruthy : PyVal → Bool
  | PyVal.none => false
  | PyVal.int n => n != 0
  | PyVal.str s => s != ""
  | PyVal.bool b => b

/-- Python exceptions that the embedded code can raise and not catch. -/
inductive PyErr where
  | attributeError
  | osError
deriving DecidableEq, Repr

deriving instance DecidableEq for Except

/-- Characters of the Python literal `'/Date()'` passed to `str.strip`. -/
def stripChars : List Char := ['/', 'D', 'a', 't', 'e', '(', ')']

/-- Python `s.strip(cs)`: remove characters belonging to `cs` from both
ends of `s`. -/
def pyStrip (cs : List Char) (s : String) : String :=
  ⟨(((s.data.dropWhile cs.contains).reverse.dropWhile cs.contains).reverse)⟩

/-- Python `s.startswith(pre)` on the underlying character lists. -/
def listStartsWith : List Char → List Char → Bool
  | _, [] => true
  | [], _ :: _ => false
  | c :: cs, p :: ps => c = p && listStartsWith cs ps

/-- Python `s.startswith(pre)`. -/
def pyStartsWith (s pre : String) : Bool :=
  listStartsWith s.data pre.data

/-- ASCII whitespace accepted by Python `int()` around the digits. -/
def isPySpace (c : Char) : Bool :=
  c == ' ' || c == '\t' || c == '\n' || c == '\r' || c == '\x0b' || c == '\x0c'

/-- Digit run of Python `int()` after the first digit: decimal digits with
single underscores allowed between digits. -/
def pyDigitsAux : List Char → Nat → Option Nat
  | [], acc => Option.some acc
  | c :: rest, acc =>
    if c.isDigit then pyDigitsAux rest (acc * 10 + (c.toNat - 48))
    else if c = '_' then
      match rest with
      | [] => Option.none
      | d :: rest' =>
        if d.isDigit then pyDigitsAux rest' (acc * 10 + (d.toNat - 48))
        else Option.none
    else Option.none

/-- Digit run of Python `int()`: at least one digit, then `pyDigitsAux`. -/
def pyDigits : List Char → Option Nat
  | [] => Option.none
  | c :: rest => if c.isDigit then pyDigitsAux rest (c.toNat - 48) else Option.none

/-- Python `int(s)` for a decimal string: strip ASCII whitespace, optional
single sign, then a digit run.  `Option.none` models ValueError. -/
def pyStrToInt (s : String) : Option Int :=
  let l := ((s.data.dropWhile isPySpace).reverse.dropWhile isPySpace).reverse
  match l with
  | [] => Option.none
  | c :: rest =>
    if c = '-' then (pyDigits rest).map (fun n => -(Int.ofNat n))
    else if c = '+' then (pyDigits rest).map (fun n => Int.ofNat n)
    else (pyDigits (c :: rest)).map (fun n => Int.ofNat n)

/-- Decimal digit characters, most significant first; structural recursion
on a fuel bound (any fuel exceeding the number suffices, and `n + 1` does). -/
def natDigitsAuxF : Nat → Nat → List Char
  | 0, _ => []
  | fuel + 1, n =>
    if n < 10 then [Nat.digitChar n]
    else natDigitsAuxF fuel (n / 10) ++ [Nat.digitChar (n % 10)]

/-- Decimal digit characters of a natural number, most significant first. -/
def natDigits (n : Nat) : List Char := natDigitsAuxF (n + 1) n

/-- Canonical decimal string of an integer (as Python `str` renders one). -/
def decimalString (m : Int) : String :=
  if m < 0 then ⟨'-' :: natDigits m.natAbs⟩ else ⟨natDigits m.toNat⟩

/-- Civil calendar date (year, month, day) of a count of days since
1970-01-01, proleptic Gregorian (Hinnant's algorithm, as used by C
timezone conversion for our purposes). -/
def civilFromDays (z0 : Int) : Int × Int × Int :=
  let z := z0 + 719468
  let era := z.fdiv 146097
  let doe := z - era * 146097
  let yoe := (doe - doe.fdiv 1460 + doe.fdiv 36524 - doe.fdiv 146096).fdiv 365
  let y := yoe + era * 400
  let doy := doe - (365 * yoe + yoe.fdiv 4 - yoe.fdiv 100)
  let mp := (5 * doy + 2).fdiv 153
  let d := doy - (153 * mp + 2).fdiv 5 + 1
  let m := if mp < 10 then mp + 3 else mp - 9
  (if m ≤ 2 then y + 1 else y, m, d)

/-- Largest local calendar year the C `tm_year` (32-bit int, offset 1900)
can represent; beyond it `datetime.fromtimestamp` fails with an uncaught
OSError on a 64-bit Linux. -/
def cTimeMaxYear : Int := 2147483647 + 1900

/-- Smallest local calendar year the C `tm_year` can represent. -/
def cTimeMinYear : Int := -2147483648 + 1900

/-- Model of `datetime.fromtimestamp(ms / 1000)` reduced to the local
calendar date: `tzoff` is the local offset east of UTC in seconds.
`Except.error` models the uncaught OSError far outside the C time range;
`Except.ok Option.none` models the ValueError (caught by the caller) for
local years outside `datetime`'s 1..9999; otherwise the local date. -/
def fromtimestampDate (tzoff ms : Int) : Except PyErr (Option (Int × Int × Int)) :=
  let ymd := civilFromDays ((ms + tzoff * 1000).fdiv 86400000)
  if ymd.1 < cTimeMinYear ∨ cTimeMaxYear < ymd.1 then Except.error PyErr.osError
  else if ymd.1 < 1 ∨ 9999 < ymd.1 then Except.ok Option.none
  else Except.ok (Option.some ymd)

/-- Zero-pad a (nonnegative, at most 2-digit) component as `%m` / `%d` do. -/
def pad2 (n : Int) : String :=
  if n < 10 then "0" ++ decimalString n else decimalString n

/-- glibc `strftime('%Y-%m-%d')`: unpadded year, 2-digit month and day. -/
def strftimeYMD (ymd : Int × Int × Int) : String :=
  decimalString ymd.1 ++ "-" ++ pad2 ymd.2.1 ++ "-" ++ pad2 ymd.2.2

/-- Embedding of `PhoenixPermitScraper._parse_date`.  The argument is the
raw `IssuedDate` value (any Python value).  A falsy value or a string not
starting with `/Date(` yields None; otherwise the `'/Date()'` character set
is stripped from both ends, the remainder parsed with `int()` (ValueError
caught, yielding None) and fed to `datetime.fromtimestamp(ms / 1000)`
(ValueError caught, yielding None; OSError uncaught).  A truthy non-string
raises AttributeError at `.startswith`, which nothing catches. -/
def parse_date (tzoff : Int) (v : PyVal) : Except PyErr (Option String) :=
  if pyTruthy v = false then Except.ok Option.none
  else
    match v with
    | PyVal.str s =>
      if pyStartsWith s "/Date(" = false then Except.ok Option.none
      else
        match pyStrToInt (pyStrip stripChars s) with
        | Option.none => Except.ok Option.none
        | Option.some ms =>
          match fromtimestampDate tzoff ms with
          | Except.error e => Except.error e
          | Except.ok Option.none => Except.ok Option.none
          | Except.ok (Option.some ymd) => Except.ok (Option.some (strftimeYMD ymd))
    | _ => Except.error PyErr.attributeError

/-- Lift the parsed date back into a Python value (str or None). -/
def pyOfOptStr : Option String → PyVal
  | Option.none => PyVal.none
  | Option.some s => PyVal.str s

/-- Embedding of `PhoenixPermitScraper._process_permit_data`: extract the
six fields, decode the date (its AttributeError / OSError propagate), then
reject the record when `TypeNumber` or `PermitAddress` is falsy, else build
the six-key dict in the source's literal order. -/
def process_permit_data (tzoff : Int) (p : RawRecord) : Except PyErr (Option NRec) :=
  let permit_number := pyGet p "TypeNumber"
  let address := pyGet p "PermitAddress"
  let contractor := pyGet p "ProfessionalName"
  let issued_date_raw := pyGet p "IssuedDate"
  match parse_date tzoff issued_date_raw with
  | Except.error e => Except.error e
  | Except.ok issued_date =>
    let permit_type := pyGet p "PermitType"
    let status := pyGet p "Status"
    if !(pyTruthy permit_number) || !(pyTruthy address) then Except.ok Option.none
    else
      Except.ok (Option.some
        [("permit_number", permit_number),
         ("address", address),
         ("contractor", contractor),
         ("issued_date", pyOfOptStr issued_date),
         ("permit_type", permit_type),
         ("status", status)])

/-- A form-encoded POST payload: field names to values in literal order. -/
abbrev Payload := List (String × PyVal)

/-- Parsed JSON response envelope.  The spec's inbound interface is a JSON
object with a `Data` array and an integer `Total`; either may be missing
(the source reads both with `.get` and a default). -/
structure Envelope where
  Data : Option (List RawRecord)
  Total : Option Int
deriving DecidableEq

/-- Abstract transport standing for `_make_request`: `Option.none` covers
every failure the source catches there (transport error, non-success HTTP
status via `raise_for_status`, JSON decode failure), all of which make
`_make_request` return `None`. -/
abbrev Transport := Payload → Option Envelope

/-- The request payload built at the top of each loop iteration, with the
source's literal field order and constants. -/
def mkPayload (sd ed : String) (ps page : Int) : Payload :=
  [("sort", PyVal.str ""),
   ("page", PyVal.int page),
   ("pageSize", PyVal.int ps),
   ("group", PyVal.str ""),
   ("filter", PyVal.str ""),
   ("PermitType", PyVal.str ""),
   ("PermitNumber", PyVal.str ""),
   ("TempPermit", PyVal.str "Y"),
   ("AddrNumber", PyVal.str ""),
   ("AddrDirection", PyVal.str ""),
   ("AddrStreet", PyVal.str ""),
   ("AddrType", PyVal.str ""),
   ("ProfName", PyVal.str ""),
   ("ProfStateLicense", PyVal.str ""),
   ("ProjectNumber", PyVal.str ""),
   ("ProjectName", PyVal.str ""),
   ("SolarGreenAdaptive", PyVal.str "solar"),
   ("SolarGreenAdaptiveStartDate", PyVal.str sd),
   ("SolarGreenAdaptiveEndDate", PyVal.str ed)]

/-- The source's per-page `for permit_json in permit_list_json` loop:
normalize each raw record, appending the accepted ones to the accumulator
(an accepted record is a nonempty dict, hence truthy).  An exception from
the normalizer propagates. -/
def processPage (tzoff : Int) : List RawRecord → List NRec → Except PyErr (List NRec)
  | [], acc => Except.ok acc
  | r :: rs, acc =>
    match process_permit_data tzoff r with
    | Except.error e => Except.error e
    | Except.ok Option.none => processPage tzoff rs acc
    | Except.ok (Option.some rec) => processPage tzoff rs (acc ++ [rec])

/-- One fetch run from loop state (page, accumulator, request log, captured
total), fuel-indexed since the source's `while True` loop is not provably
terminating for arbitrary transports.  The first component is the list of
payloads issued (observable even when an exception ends the run); the
second is the returned permit list, or the uncaught exception. -/
def fetchGo (tzoff : Int) (tr : Transport) (sd ed : String) (ps : Int) :
    Nat → Int → List NRec → List Payload → Int → List Payload × Except PyErr (List NRec)
  | 0, _page, acc, log, _total => (log, Except.ok acc)
  | fuel + 1, page, acc, log, total =>
    let payload := mkPayload sd ed ps page
    let log' := log ++ [payload]
    match tr payload with
    | Option.none => (log', Except.ok acc)
    | Option.some resp =>
      let permitList := resp.Data.getD []
      if permitList = [] ∧ 1 < page then (log', Except.ok acc)
      else
        let total' := if page = 1 then resp.Total.getD 0 else total
        if page = 1 ∧ total' = 0 then (log', Except.ok acc)
        else if page = 1 ∧ 0 < total' ∧ permitList = [] then (log', Except.ok acc)
        else
          match processPage tzoff permitList acc with
          | Except.error e => (log', Except.error e)
          | Except.ok acc' =>
            if total' ≤ (acc'.length : Int) ∨ (permitList.length : Int) < ps
            then (log', Except.ok acc')
            else fetchGo tzoff tr sd ed ps fuel (page + 1) acc' log' total'

/-- Embedding of `fetch_permits_for_date_range`: run the pagination loop
from page 1 with an empty accumulator and `total_records = 0`.  The
inter-page `time.sleep` has no observable effect and is not modelled. -/
def fetch_permits_for_date_range (tzoff : Int) (tr : Transport) (sd ed : String)
    (ps : Int) (fuel : Nat) : List Payload × Except PyErr (List NRec) :=
  fetchGo tzoff tr sd ed ps fuel 1 [] [] 0

/-- The normalized record an accepted raw record maps to, if any. -/
def normOf (tzoff : Int) (r : RawRecord) : Option NRec :=
  match process_permit_data tzoff r with
  | Except.ok (Option.some rec) => Option.some rec
  | _ => Option.none

/-- The normalized records of one page, in within-page order. -/
def pageNorms (tzoff : Int) (l : List RawRecord) : List NRec :=
  l.filterMap (normOf tzoff)

/-- Field names of the normalized record, in the source's literal order;
`save_to_csv` uses the first record's keys as the CSV header. -/
def csvFields : List String :=
  ["permit_number", "address", "contractor", "issued_date", "permit_type", "status"]

/-- The CSV header `save_to_csv` derives: the keys of the first record. -/
def csvHeader (data : List NRec) : Option (List String) :=
  data.head?.map (List.map Prod.fst)

theorem isPySpace_not_digit {c : Char} (h : isPySpace c = true) : c.isDigit = false := by
  simp only [isPySpace, Bool.or_eq_true, beq_iff_eq] at h
  rcases h with ((((rfl | rfl) | rfl) | rfl) | rfl) | rfl <;> decide

theorem digit_not_space {c : Char} (h : c.isDigit = true) : isPySpace c = false := by
  cases hs : isPySpace c with
  | false => rfl
  | true => rw [isPySpace_not_digit hs] at h; exact absurd h (by decide)

theorem dropWhile_of_digits (L : List Char) (hall : ∀ c ∈ L, c.isDigit = true) :
    L.dropWhile isPySpace = L := by
  cases L with
  | nil => rfl
  | cons c rest =>
    rw [List.dropWhile_cons, digit_not_space (hall c (by simp))]
    simp

/-- C3 counterexample.  A RawRecord with `permit_number` and `address` both
absent, but whose `IssuedDate` is a truthy non-string: the claim says the
Normalizer returns no record (a clean rejection), but the code raises
AttributeError at `.startswith` before the validation check runs. -/
theorem process_permit_data_missing_required_cex :
    process_permit_data 0 [("IssuedDate", PyVal.int 1)]
        = Except.error PyErr.attributeError
    ∧ process_permit_data 0 [("IssuedDate", PyVal.int 1)]
        ≠ Except.ok Option.none := by
  exact ⟨rfl, by decide⟩

/-- C3 (amended).  For every RawRecord whose `IssuedDate` value does not
make date decoding raise (in particular any record where that value is
absent, falsy, or a string within the platform time range): if
`permit_number` (TypeNumber) or `address` (PermitAddress) is absent or
falsy the Normalizer rejects the record outright, and if both are truthy
it produces a record whose `permit_number` and `address` equal the source
values. -/
theorem process_permit_data_validation (tzoff : Int) (p : RawRecord)
    (h : ∃ r, parse_date tzoff (pyGet p "IssuedDate") = Except.ok r) :
    (¬(pyTruthy (pyGet p "TypeNumber") = true
        ∧ pyTruthy (pyGet p "PermitAddress") = true) →
      process_permit_data tzoff p = Except.ok Option.none)
    ∧ (pyTruthy (pyGet p "TypeNumber") = true →
       pyTruthy (pyGet p "PermitAddress") = true →
       ∃ dv, process_permit_data tzoff p = Except.ok (Option.some
         [("permit_number", pyGet p "TypeNumber"),
          ("address", pyGet p "PermitAddress"),
          ("contractor", pyGet p "ProfessionalName"),
          ("issued_date", dv),
          ("permit_type", pyGet p "PermitType"),
          ("status", pyGet p "Status")])) := by
  obtain ⟨r, hr⟩ := h
  constructor
  · intro hna
    have hcond : (!(pyTruthy (pyGet p "TypeNumber"))
        || !(pyTruthy (pyGet p "PermitAddress"))) = true := by
      cases hA : pyTruthy (pyGet p "TypeNumber") <;>
        cases hB : pyTruthy (pyGet p "PermitAddress") <;> simp_all
    simp only [process_permit_data, hr, hcond, if_true]
  · intro hA hB
    have hcond : (!(pyTruthy (pyGet p "TypeNumber"))
        || !(pyTruthy (pyGet p "PermitAddress"))) = false := by
      rw [hA, hB]
      rfl
    refine ⟨pyOfOptStr r, ?_⟩
    simp only [process_permit_data, hr, hcond, Bool.false_eq_true, if_false]

/-- Witness for `process_permit_data_validation`: a record missing
TypeNumber is rejected. -/
theorem process_permit_data_validation_witness :
    process_permit_data 0 [("PermitAddress", PyVal.str "1 Main St")]
      = Except.ok Option.none :=
  (process_permit_data_validation 0 [("PermitAddress", PyVal.str "1 Main St")]
    ⟨Option.none, rfl⟩).1 (by decide)

/-- C5 (code bug).  The spec requires normalization never to raise for a
malformed RawRecord, but on a record whose required fields are present and
whose `IssuedDate` is a truthy non-string (here the integer 1) the code
raises AttributeError from `date_string.startswith` inside `_parse_date`
(only ValueError and TypeError are caught). -/
theorem process_permit_data_raises :
    process_permit_data 0 [("TypeNumber", PyVal.str "P1"),
      ("PermitAddress", PyVal.str "1 Main St"), ("IssuedDate", PyVal.int 1)]
      = Except.error PyErr.attributeError := by
  rfl

theorem pageNorms_cons_ok (tzoff : Int) (r : RawRecord) (rs : List RawRecord)
    (rec : NRec) (hr : process_permit_data tzoff r = Except.ok (Option.some rec)) :
    pageNorms tzoff (r :: rs) = rec :: pageNorms tzoff rs := by
  simp [pageNorms, List.filterMap_cons, normOf, hr]

theorem processPage_all_ok (tzoff : Int) : ∀ (l : List RawRecord),
    (∀ r ∈ l, ∃ rec, process_permit_data tzoff r = Except.ok (Option.some rec)) →
    (∀ acc, processPage tzoff l acc = Except.ok (acc ++ pageNorms tzoff l))
    ∧ (pageNorms tzoff l).length = l.length := by
  intro l
  induction l with
  | nil => intro _; exact ⟨fun acc => by simp [processPage, pageNorms], by simp [pageNorms]⟩
  | cons r rs ih =>
    intro h
    obtain ⟨rec, hrec⟩ := h r (by simp)
    obtain ⟨ihacc, ihlen⟩ := ih (fun x hx => h x (by simp [hx]))
    constructor
    · intro acc
      rw [processPage, hrec]
      show processPage tzoff rs (acc ++ [rec]) = _
      rw [ihacc (acc ++ [rec]), pageNorms_cons_ok tzoff r rs rec hrec]
      simp
    · rw [pageNorms_cons_ok tzoff r rs rec hrec]
      simp [ihlen]

/-- C6.  A fetch run whose first page reports `Total = 0` (the `Total`
field read with default 0) returns an empty result after exactly one page
request; the outcome is a normal return (`Except.ok`), not an error. -/
theorem fetch_total_zero (tzoff : Int) (tr : Transport) (sd ed : String) (ps : Int)
    (fuel : Nat) (hfuel : 1 ≤ fuel) (env : Envelope)
    (htr : tr (mkPayload sd ed ps 1) = Option.some env)
    (htot : env.Total.getD 0 = 0) :
    fetch_permits_for_date_range tzoff tr sd ed ps fuel
      = ([mkPayload sd ed ps 1], Except.ok []) := by
  obtain ⟨f, rfl⟩ : ∃ f, fuel = f + 1 := ⟨fuel - 1, by omega⟩
  rw [fetch_permits_for_date_range, fetchGo, htr]
  simp [htot]

/-- Witness for `fetch_total_zero`. -/
theorem fetch_total_zero_witness :
    fetch_permits_for_date_range 0
      (fun _ => Option.some ⟨Option.some [], Option.some 0⟩) "s" "e" 50 1
      = ([mkPayload "s" "e" 50 1], Except.ok []) :=
  fetch_total_zero 0 (fun _ => Option.some ⟨Option.some [], Option.some 0⟩)
    "s" "e" 50 1 (by decide) ⟨Option.some [], Option.some 0⟩ rfl rfl

/-- C2.  Whenever the pagination loop reaches some page `n > 1` (any
accumulated records, any request log, any captured total) and the page
request fails — `_make_request` returns None for transport errors,
non-success HTTP statuses, and unparseable bodies alike — the loop stops
at once without retrying: it issues no further request and returns exactly
the records accumulated from the earlier pages, as a normal return (no
exception escapes). -/
theorem fetch_stops_on_failed_page (tzoff : Int) (tr : Transport) (sd ed : String)
    (ps : Int) (fuel : Nat) (n : Int) (acc : List NRec) (log : List Payload)
    (total : Int) (hn : 1 < n) (hfail : tr (mkPayload sd ed ps n) = Option.none) :
    fetchGo tzoff tr sd ed ps (fuel + 1) n acc log total
      = (log ++ [mkPayload sd ed ps n], Except.ok acc) := by
  rw [fetchGo, hfail]

/-- Witness for `fetch_stops_on_failed_page`: a transport that fails on
page 2 after one accumulated page-1 record. -/
theorem fetch_stops_on_failed_page_witness :
    fetchGo 0 (fun _ => Option.none) "s" "e" 50 (3 + 1) 2
      [[("permit_number", PyVal.str "X")]] [mkPayload "s" "e" 50 1] 7
      = ([mkPayload "s" "e" 50 1, mkPayload "s" "e" 50 2],
         Except.ok [[("permit_number", PyVal.str "X")]]) :=
  fetch_stops_on_failed_page 0 (fun _ => Option.none) "s" "e" 50 3 2
    [[("permit_number", PyVal.str "X")]] [mkPayload "s" "e" 50 1] 7
    (by decide) rfl

/-- C7 counterexample.  Page 1 returns exactly `pageSize` (= 1) raw
records and reports `Total = pageSize`, yet the run issues two page
requests and returns no records: the single raw record fails
normalization, so the post-normalization accumulated count (0) stays
below the reported total and a second page is fetched — refuting the
claim that such a run always issues exactly one request and returns
`pageSize` records, and exhibiting the claim's own tie-break clause (the
termination check uses the post-normalization count, not the raw row
count). -/
theorem fetch_single_full_page_cex :
    fetch_permits_for_date_range 0
      (fun p =>
        if pyGet p "page" = PyVal.int 1
        then Option.some ⟨Option.some [[]], Option.some 1⟩
        else if pyGet p "page" = PyVal.int 2
        then Option.some ⟨Option.some [], Option.some 1⟩
        else Option.none)
      "03/27/2025" "04/26/2025" 1 3
      = ([mkPayload "03/27/2025" "04/26/2025" 1 1,
          mkPayload "03/27/2025" "04/26/2025" 1 2], Except.ok []) := by
  rfl

/-- C7 (amended).  When page 1 returns exactly `pageSize` raw records, all
of which pass normalization, and reports `Total = pageSize`, the run
issues exactly one page request and returns exactly those `pageSize`
normalized records; the termination comparison against the reported total
uses the post-normalization accumulated count. -/
theorem fetch_single_full_page (tzoff : Int) (tr : Transport) (sd ed : String)
    (ps : Int) (fuel : Nat) (hfuel : 1 ≤ fuel) (env : Envelope) (l1 : List RawRecord)
    (htr : tr (mkPayload sd ed ps 1) = Option.some env)
    (hdata : env.Data = Option.some l1)
    (hlen : (l1.length : Int) = ps) (hps : 0 < ps)
    (htot : env.Total = Option.some ps)
    (hnorm : ∀ r ∈ l1, ∃ rec, process_permit_data tzoff r = Except.ok (Option.some rec)) :
    fetch_permits_for_date_range tzoff tr sd ed ps fuel
      = ([mkPayload sd ed ps 1], Except.ok (pageNorms tzoff l1))
    ∧ (pageNorms tzoff l1).length = l1.length := by
  obtain ⟨f, rfl⟩ : ∃ f, fuel = f + 1 := ⟨fuel - 1, by omega⟩
  obtain ⟨hacc, hlen'⟩ := processPage_all_ok tzoff l1 hnorm
  have hl1ne : ¬(l1 = []) := by
    intro h
    subst h
    simp at hlen
    omega
  have hne0 : ¬((ps : Int) = 0) := by omega
  have hterm : ps ≤ ((pageNorms tzoff l1).length : Int) := by
    rw [hlen', hlen]
  refine ⟨?_, hlen'⟩
  rw [fetch_permits_for_date_range, fetchGo, htr]
  simp [hdata, htot, hl1ne, hne0, hacc, hterm]

/-- C7 witness: one full page of one record that normalizes, Total = 1. -/
theorem fetch_single_full_page_witness :
    fetch_permits_for_date_range 0
      (fun p => if pyGet p "page" = PyVal.int 1
        then Option.some ⟨Option.some
          [[("TypeNumber", PyVal.str "A"), ("PermitAddress", PyVal.str "x")]],
          Option.some 1⟩
        else Option.none)
      "s" "e" 1 2
      = ([mkPayload "s" "e" 1 1],
         Except.ok (pageNorms 0
           [[("TypeNumber", PyVal.str "A"), ("PermitAddress", PyVal.str "x")]]))
    ∧ (pageNorms 0
        [[("TypeNumber", PyVal.str "A"), ("PermitAddress", PyVal.str "x")]]).length
      = [[("TypeNumber", PyVal.str "A"), ("PermitAddress", PyVal.str "x")]].length :=
  fetch_single_full_page 0
    (fun p => if pyGet p "page" = PyVal.int 1
      then Option.some ⟨Option.some
        [[("TypeNumber", PyVal.str "A"), ("PermitAddress", PyVal.str "x")]],
        Option.some 1⟩
      else Option.none)
    "s" "e" 1 2 (by decide)
    ⟨Option.some [[("TypeNumber", PyVal.str "A"), ("PermitAddress", PyVal.str "x")]],
     Option.some 1⟩
    [[("TypeNumber", PyVal.str "A"), ("PermitAddress", PyVal.str "x")]]
    rfl rfl (by decide) (by decide) rfl
    (by
      intro r hr
      simp only [List.mem_singleton] at hr
      exact ⟨_, by rw [hr]; rfl⟩)

/-- C1.  A two-page scenario: page 1 returns exactly `pageSize` raw
records (all passing normalization) with reported `Total = pageSize + k`,
`0 < k < pageSize`, and page 2 returns `k` raw records (all passing
normalization).  The run issues exactly the two page requests 1 then 2,
in that order, and returns the `pageSize + k` normalized records in
page-then-row order. -/
theorem fetch_two_pages (tzoff : Int) (tr : Transport) (sd ed : String)
    (ps k : Int) (fuel : Nat) (hfuel : 2 ≤ fuel)
    (env1 env2 : Envelope) (l1 l2 : List RawRecord)
    (htr1 : tr (mkPayload sd ed ps 1) = Option.some env1)
    (htr2 : tr (mkPayload sd ed ps 2) = Option.some env2)
    (hd1 : env1.Data = Option.some l1) (hd2 : env2.Data = Option.some l2)
    (hl1 : (l1.length : Int) = ps) (hl2 : (l2.length : Int) = k)
    (hk0 : 0 < k) (hkps : k < ps)
    (ht1 : env1.Total = Option.some (ps + k))
    (hnorm : ∀ r ∈ l1 ++ l2, ∃ rec,
      process_permit_data tzoff r = Except.ok (Option.some rec)) :
    fetch_permits_for_date_range tzoff tr sd ed ps fuel
      = ([mkPayload sd ed ps 1, mkPayload sd ed ps 2],
         Except.ok (pageNorms tzoff l1 ++ pageNorms tzoff l2))
    ∧ ((pageNorms tzoff l1 ++ pageNorms tzoff l2).length : Int) = ps + k := by
  obtain ⟨f, rfl⟩ : ∃ f, fuel = f + 2 := ⟨fuel - 2, by omega⟩
  obtain ⟨hacc1, hlen1⟩ := processPage_all_ok tzoff l1
    (fun r hr => hnorm r (List.mem_append_left _ hr))
  obtain ⟨hacc2, hlen2⟩ := processPage_all_ok tzoff l2
    (fun r hr => hnorm r (List.mem_append_right _ hr))
  have hl1ne : ¬(l1 = []) := by
    intro h; subst h; simp at hl1; omega
  have hl2ne : ¬(l2 = []) := by
    intro h; subst h; simp at hl2; omega
  have hlen12 : ((pageNorms tzoff l1 ++ pageNorms tzoff l2).length : Int) = ps + k := by
    have hn : (pageNorms tzoff l1 ++ pageNorms tzoff l2).length
        = l1.length + l2.length := by
      rw [List.length_append, hlen1, hlen2]
    rw [hn]
    push_cast
    rw [hl1, hl2]
  have hne0 : ¬((ps + k : Int) = 0) := by omega
  have hps1 : ((pageNorms tzoff l1).length : Int) = ps := by
    rw [hlen1]; exact hl1
  have hc1 : ¬(ps + k ≤ ((pageNorms tzoff l1).length : Int)) := by
    rw [hps1]; omega
  have hc1' : ¬((l1.length : Int) < ps) := by
    rw [hl1]; omega
  refine ⟨?_, hlen12⟩
  have hl1f : (l1 = []) = False := eq_false hl1ne
  have hl2f : (l2 = []) = False := eq_false hl2ne
  have hne0f : ((ps + k : Int) = 0) = False := eq_false hne0
  have h21 : ((2 : Int) = 1) = False := by norm_num
  have hcond1 : (ps + k ≤ ((pageNorms tzoff l1).length : Int)
      ∨ ((l1.length : Int) < ps)) = False :=
    eq_false (fun hcon => hcon.elim hc1 hc1')
  rw [fetch_permits_for_date_range, fetchGo, htr1]
  simp only [hd1, Option.getD_some, hl1f, false_and, if_false, eq_self_iff_true,
    if_true, ht1, true_and, hne0f, and_false, hacc1, List.nil_append, hcond1]
  rw [show (1 : Int) + 1 = 2 from rfl, fetchGo, htr2]
  simp only [hd2, Option.getD_some, hl2f, false_and, if_false, h21, hacc2]
  simp [hlen12]
  intro hlt _
  exfalso
  rw [hps1] at hlt
  have hk2 : ((pageNorms tzoff l2).length : Int) = k := by
    rw [hlen2]; exact hl2
  rw [hk2] at hlt
  omega

/-- C1 witness: pageSize 2, k = 1, reported total 3; page 1 holds two
records and page 2 one, all normalizable. -/
theorem fetch_two_pages_witness :
    fetch_permits_for_date_range 0
      (fun p => if pyGet p "page" = PyVal.int 1
        then Option.some ⟨Option.some
          [[("TypeNumber", PyVal.str "A"), ("PermitAddress", PyVal.str "x")],
           [("TypeNumber", PyVal.str "B"), ("PermitAddress", PyVal.str "y")]],
          Option.some 3⟩
        else if pyGet p "page" = PyVal.int 2
        then Option.some ⟨Option.some
          [[("TypeNumber", PyVal.str "C"), ("PermitAddress", PyVal.str "z")]],
          Option.some 99⟩
        else Option.none)
      "03/27/2025" "04/26/2025" 2 5
      = ([mkPayload "03/27/2025" "04/26/2025" 2 1,
          mkPayload "03/27/2025" "04/26/2025" 2 2],
         Except.ok (pageNorms 0
            [[("TypeNumber", PyVal.str "A"), ("PermitAddress", PyVal.str "x")],
             [("TypeNumber", PyVal.str "B"), ("PermitAddress", PyVal.str "y")]]
          ++ pageNorms 0
            [[("TypeNumber", PyVal.str "C"), ("PermitAddress", PyVal.str "z")]]))
    ∧ ((pageNorms 0
          [[("TypeNumber", PyVal.str "A"), ("PermitAddress", PyVal.str "x")],
           [("TypeNumber", PyVal.str "B"), ("PermitAddress", PyVal.str "y")]]
        ++ pageNorms 0
          [[("TypeNumber", PyVal.str "C"), ("PermitAddress", PyVal.str "z")]]).length
        : Int) = 2 + 1 :=
  fetch_two_pages 0
    (fun p => if pyGet p "page" = PyVal.int 1
      then Option.some ⟨Option.some
        [[("TypeNumber", PyVal.str "A"), ("PermitAddress", PyVal.str "x")],
         [("TypeNumber", PyVal.str "B"), ("PermitAddress", PyVal.str "y")]],
        Option.some 3⟩
      else if pyGet p "page" = PyVal.int 2
      then Option.some ⟨Option.some
        [[("TypeNumber", PyVal.str "C"), ("PermitAddress", PyVal.str "z")]],
        Option.some 99⟩
      else Option.none)
    "03/27/2025" "04/26/2025" 2 1 5 (by decide)
    ⟨Option.some
      [[("TypeNumber", PyVal.str "A"), ("PermitAddress", PyVal.str "x")],
       [("TypeNumber", PyVal.str "B"), ("PermitAddress", PyVal.str "y")]],
      Option.some 3⟩
    ⟨Option.some
      [[("TypeNumber", PyVal.str "C"), ("PermitAddress", PyVal.str "z")]],
      Option.some 99⟩
    [[("TypeNumber", PyVal.str "A"), ("PermitAddress", PyVal.str "x")],
     [("TypeNumber", PyVal.str "B"), ("PermitAddress", PyVal.str "y")]]
    [[("TypeNumber", PyVal.str "C"), ("PermitAddress", PyVal.str "z")]]
    rfl rfl rfl rfl (by decide) (by decide) (by decide) (by decide) rfl
    (by
      intro r hr
      simp only [List.cons_append, List.nil_append, List.mem_cons,
        List.not_mem_nil, or_false] at hr
      rcases hr with rfl | rfl | rfl <;> exact ⟨_, rfl⟩)

/-- Agreement of two optional response envelopes, except that the `Total`
field (read with default 0) is only required to agree on page 1. -/
def envAgree (n : Int) : Option Envelope → Option Envelope → Prop
  | Option.none, Option.none => True
  | Option.some e1, Option.some e2 =>
      e1.Data = e2.Data ∧ (n = 1 → e1.Total.getD 0 = e2.Total.getD 0)
  | _, _ => False

theorem fetchGo_agree (tzoff : Int) (sd ed : String) (ps : Int)
    (tr1 tr2 : Transport)
    (h : ∀ n : Int, envAgree n (tr1 (mkPayload sd ed ps n)) (tr2 (mkPayload sd ed ps n))) :
    ∀ (fuel : Nat) (page : Int) (acc : List NRec) (log : List Payload) (total : Int),
      fetchGo tzoff tr1 sd ed ps fuel page acc log total
        = fetchGo tzoff tr2 sd ed ps fuel page acc log total := by
  intro fuel
  induction fuel with
  | zero => intro page acc log total; rfl
  | succ f ih =>
    intro page acc log total
    have hp := h page
    cases h1 : tr1 (mkPayload sd ed ps page) with
    | none =>
      cases h2 : tr2 (mkPayload sd ed ps page) with
      | none => simp only [fetchGo, h1, h2]
      | some e2 =>
        rw [h1, h2] at hp
        exact absurd hp (by simp [envAgree])
    | some e1 =>
      cases h2 : tr2 (mkPayload sd ed ps page) with
      | none =>
        rw [h1, h2] at hp
        exact absurd hp (by simp [envAgree])
      | some e2 =>
        rw [h1, h2] at hp
        obtain ⟨hdat, htot⟩ := hp
        simp only [fetchGo, h1, h2]
        rw [hdat]
        by_cases hpage : page = 1
        · subst hpage
          rw [htot rfl]
          simp only [ih]
        · simp only [if_neg hpage]
          simp only [ih]

/-- C8.  The loop's source-reported total is captured exactly once, from
the first page's envelope (`Total`, default 0): two transports that serve
identical page-1 envelopes up to `Total.getD 0`, identical `Data` on every
later page, and fail on the same pages, produce identical runs — in
particular, `Total` values in responses for pages greater than 1 never
change the total used by the loop. -/
theorem fetch_total_captured_once (tzoff : Int) (sd ed : String) (ps : Int)
    (tr1 tr2 : Transport) (fuel : Nat)
    (h : ∀ n : Int, envAgree n (tr1 (mkPayload sd ed ps n)) (tr2 (mkPayload sd ed ps n))) :
    fetch_permits_for_date_range tzoff tr1 sd ed ps fuel
      = fetch_permits_for_date_range tzoff tr2 sd ed ps fuel :=
  fetchGo_agree tzoff sd ed ps tr1 tr2 h fuel 1 [] [] 0

/-- Witness for `fetch_total_captured_once`: page-1 `Total` 0 versus
missing (defaulted to 0), with a differing page-2 `Total`. -/
theorem fetch_total_captured_once_witness :
    fetch_permits_for_date_range 0
      (fun p => if pyGet p "page" = PyVal.int 1
        then Option.some ⟨Option.some [], Option.some 0⟩
        else if pyGet p "page" = PyVal.int 2
        then Option.some ⟨Option.some [], Option.some 5⟩
        else Option.none) "s" "e" 50 3
      = fetch_permits_for_date_range 0
      (fun p => if pyGet p "page" = PyVal.int 1
        then Option.some ⟨Option.some [], Option.none⟩
        else if pyGet p "page" = PyVal.int 2
        then Option.some ⟨Option.some [], Option.some 99⟩
        else Option.none) "s" "e" 50 3 :=
  fetch_total_captured_once 0 "s" "e" 50
    (fun p => if pyGet p "page" = PyVal.int 1
      then Option.some ⟨Option.some [], Option.some 0⟩
      else if pyGet p "page" = PyVal.int 2
      then Option.some ⟨Option.some [], Option.some 5⟩
      else Option.none)
    (fun p => if pyGet p "page" = PyVal.int 1
      then Option.some ⟨Option.some [], Option.none⟩
      else if pyGet p "page" = PyVal.int 2
      then Option.some ⟨Option.some [], Option.some 99⟩
      else Option.none)
    3
    (by
      intro n
      have hpg : pyGet (mkPayload "s" "e" 50 n) "page" = PyVal.int n := rfl
      by_cases h1 : n = 1
      · subst h1
        simp only [hpg]
        simp [envAgree]
      · by_cases h2 : n = 2
        · subst h2
          simp only [hpg]
          simp [envAgree]
        · simp only [hpg]
          rw [if_neg (by simp [h1]), if_neg (by simp [h2]),
            if_neg (by simp [h1]), if_neg (by simp [h2])]
          simp [envAgree])

theorem fetchGo_log_mem (tzoff : Int) (tr : Transport) (sd ed : String) (ps : Int) :
    ∀ (fuel : Nat) (page : Int) (acc : List NRec) (log : List Payload) (total : Int)
      (p : Payload), p ∈ (fetchGo tzoff tr sd ed ps fuel page acc log total).1 →
      p ∈ log ∨ ∃ n : Int, page ≤ n ∧ p = mkPayload sd ed ps n := by
  intro fuel
  induction fuel with
  | zero =>
    intro page acc log total p hp
    exact Or.inl (by simpa [fetchGo] using hp)
  | succ f ih =>
    intro page acc log total p hp
    cases htr : tr (mkPayload sd ed ps page) with
    | none =>
      simp only [fetchGo, htr] at hp
      simp only [List.mem_append, List.mem_singleton] at hp
      rcases hp with hp | rfl
      · exact Or.inl hp
      · exact Or.inr ⟨page, le_refl _, rfl⟩
    | some resp =>
      simp only [fetchGo, htr] at hp
      repeat' split at hp
      all_goals first
        | (rcases ih _ _ _ _ _ hp with hmem | ⟨n, hn, rfl⟩
           · simp only [List.mem_append, List.mem_singleton] at hmem
             rcases hmem with hmem | rfl
             · exact Or.inl hmem
             · exact Or.inr ⟨page, le_refl _, rfl⟩
           · exact Or.inr ⟨n, by omega, rfl⟩)
        | (simp only [List.mem_append, List.mem_singleton] at hp
           rcases hp with hp | rfl
           · exact Or.inl hp
           · exact Or.inr ⟨page, le_refl _, rfl⟩)

/-- C9.  Every page request issued by a fetch run carries the source's
literal payload for some 1-based page index: fixed filters
`TempPermit = "Y"` and `SolarGreenAdaptive = "solar"`, the current page
index, the configured page size, the caller's start and end dates, and
empty strings for every other filterable field (and `mkPayload` is the
verbatim field list of the source, in its order). -/
theorem fetch_payload_shape (tzoff : Int) (tr : Transport) (sd ed : String)
    (ps : Int) (fuel : Nat) :
    (∀ p ∈ (fetch_permits_for_date_range tzoff tr sd ed ps fuel).1,
      ∃ n : Int, 1 ≤ n ∧ p = mkPayload sd ed ps n)
    ∧ (∀ n : Int,
        pyGet (mkPayload sd ed ps n) "page" = PyVal.int n
      ∧ pyGet (mkPayload sd ed ps n) "pageSize" = PyVal.int ps
      ∧ pyGet (mkPayload sd ed ps n) "TempPermit" = PyVal.str "Y"
      ∧ pyGet (mkPayload sd ed ps n) "SolarGreenAdaptive" = PyVal.str "solar"
      ∧ pyGet (mkPayload sd ed ps n) "SolarGreenAdaptiveStartDate" = PyVal.str sd
      ∧ pyGet (mkPayload sd ed ps n) "SolarGreenAdaptiveEndDate" = PyVal.str ed
      ∧ pyGet (mkPayload sd ed ps n) "sort" = PyVal.str ""
      ∧ pyGet (mkPayload sd ed ps n) "group" = PyVal.str ""
      ∧ pyGet (mkPayload sd ed ps n) "filter" = PyVal.str ""
      ∧ pyGet (mkPayload sd ed ps n) "PermitType" = PyVal.str ""
      ∧ pyGet (mkPayload sd ed ps n) "PermitNumber" = PyVal.str ""
      ∧ pyGet (mkPayload sd ed ps n) "AddrNumber" = PyVal.str ""
      ∧ pyGet (mkPayload sd ed ps n) "AddrDirection" = PyVal.str ""
      ∧ pyGet (mkPayload sd ed ps n) "AddrStreet" = PyVal.str ""
      ∧ pyGet (mkPayload sd ed ps n) "AddrType" = PyVal.str ""
      ∧ pyGet (mkPayload sd ed ps n) "ProfName" = PyVal.str ""
      ∧ pyGet (mkPayload sd ed ps n) "ProfStateLicense" = PyVal.str ""
      ∧ pyGet (mkPayload sd ed ps n) "ProjectNumber" = PyVal.str ""
      ∧ pyGet (mkPayload sd ed ps n) "ProjectName" = PyVal.str "") := by
  constructor
  · intro p hp
    rcases fetchGo_log_mem tzoff tr sd ed ps fuel 1 [] [] 0 p hp with h | h
    · exact absurd h (List.not_mem_nil p)
    · exact h
  · intro n
    exact ⟨rfl, rfl, rfl, rfl, rfl, rfl, rfl, rfl, rfl, rfl, rfl, rfl, rfl,
      rfl, rfl, rfl, rfl, rfl, rfl⟩

/-- Witness for `fetch_payload_shape`: the single request of a run whose
transport always fails has the payload shape, at page index 1. -/
theorem fetch_payload_shape_witness :
    (∃ n : Int, 1 ≤ n ∧ mkPayload "s" "e" 50 1 = mkPayload "s" "e" 50 n)
    ∧ pyGet (mkPayload "s" "e" 50 7) "TempPermit" = PyVal.str "Y" :=
  ⟨(fetch_payload_shape 0 (fun _ => Option.none) "s" "e" 50 1).1
      (mkPayload "s" "e" 50 1) (by decide),
   ((fetch_payload_shape 0 (fun _ => Option.none) "s" "e" 50 1).2 7).2.2.1⟩

theorem process_keys (tzoff : Int) (p : RawRecord) (rec : NRec)
    (h : process_permit_data tzoff p = Except.ok (Option.some rec)) :
    rec.map Prod.fst = csvFields := by
  rw [process_permit_data] at h
  cases hpd : parse_date tzoff (pyGet p "IssuedDate") with
  | error e =>
    rw [hpd] at h
    simp at h
  | ok i =>
    rw [hpd] at h
    by_cases hcond : (!(pyTruthy (pyGet p "TypeNumber"))
        || !(pyTruthy (pyGet p "PermitAddress"))) = true
    · simp only [hcond, if_true] at h
      simp at h
    · simp only [Bool.not_eq_true] at hcond
      simp only [hcond, Bool.false_eq_true, if_false] at h
      simp only [Except.ok.injEq, Option.some.injEq] at h
      rw [← h]
      rfl

theorem processPage_keys (tzoff : Int) : ∀ (l : List RawRecord) (acc acc' : List NRec),
    processPage tzoff l acc = Except.ok acc' →
    (∀ r ∈ acc, r.map Prod.fst = csvFields) →
    ∀ r ∈ acc', r.map Prod.fst = csvFields := by
  intro l
  induction l with
  | nil =>
    intro acc acc' h hacc
    simp only [processPage, Except.ok.injEq] at h
    exact fun r hr => hacc r (h ▸ hr)
  | cons r rs ih =>
    intro acc acc' h hacc
    rw [processPage] at h
    cases hpd : process_permit_data tzoff r with
    | error e =>
      rw [hpd] at h
      simp at h
    | ok o =>
      rw [hpd] at h
      cases o with
      | none => exact ih acc acc' h hacc
      | some nr =>
        refine ih (acc ++ [nr]) acc' h ?_
        intro x hx
        rcases List.mem_append.mp hx with hx | hx
        · exact hacc x hx
        · simp only [List.mem_singleton] at hx
          rw [hx]
          exact process_keys tzoff r nr hpd

theorem fetchGo_keys (tzoff : Int) (tr : Transport) (sd ed : String) (ps : Int) :
    ∀ (fuel : Nat) (page : Int) (acc : List NRec) (log : List Payload) (total : Int)
      (recs : List NRec),
      (fetchGo tzoff tr sd ed ps fuel page acc log total).2 = Except.ok recs →
      (∀ r ∈ acc, r.map Prod.fst = csvFields) →
      ∀ r ∈ recs, r.map Prod.fst = csvFields := by
  intro fuel
  induction fuel with
  | zero =>
    intro page acc log total recs h hacc
    simp only [fetchGo, Except.ok.injEq] at h
    exact fun r hr => hacc r (h ▸ hr)
  | succ f ih =>
    intro page acc log total recs h hacc
    cases htr : tr (mkPayload sd ed ps page) with
    | none =>
      simp only [fetchGo, htr, Except.ok.injEq] at h
      exact fun r hr => hacc r (h ▸ hr)
    | some resp =>
      simp only [fetchGo, htr] at h
      repeat' split at h
      all_goals
        first
        | (exact ih _ _ _ _ _ h (processPage_keys tzoff _ acc _ (by assumption) hacc))
        | (simp only [Except.ok.injEq] at h
           exact fun r hr => hacc r (h ▸ hr))
        | (simp only [Except.ok.injEq] at h
           exact fun r hr =>
             processPage_keys tzoff _ acc _ (by assumption) hacc r (h ▸ hr))
        | simp at h

/-- C10.  Every record the Normalizer accepts is a dict with exactly the
six keys `permit_number, address, contractor, issued_date, permit_type,
status`, in that order; hence every record of one fetch result has that
key list, and the CSV header `save_to_csv` takes from the first record's
keys matches every row of the run. -/
theorem normalized_record_keys :
    (∀ (tzoff : Int) (p : RawRecord) (rec : NRec),
        process_permit_data tzoff p = Except.ok (Option.some rec) →
        rec.map Prod.fst = csvFields)
    ∧ (∀ (tzoff : Int) (tr : Transport) (sd ed : String) (ps : Int) (fuel : Nat)
        (recs : List NRec),
        (fetch_permits_for_date_range tzoff tr sd ed ps fuel).2 = Except.ok recs →
        (∀ r ∈ recs, r.map Prod.fst = csvFields)
        ∧ ∀ hdr, csvHeader recs = Option.some hdr →
            ∀ r ∈ recs, r.map Prod.fst = hdr) := by
  refine ⟨process_keys, ?_⟩
  intro tzoff tr sd ed ps fuel recs h
  have hall := fetchGo_keys tzoff tr sd ed ps fuel 1 [] [] 0 recs h (by simp)
  refine ⟨hall, ?_⟩
  intro hdr hhdr r hr
  cases recs with
  | nil => exact absurd hr (List.not_mem_nil r)
  | cons r0 rest =>
    simp only [csvHeader, List.head?_cons, Option.map_some', Option.some.injEq] at hhdr
    rw [hall r hr, ← hhdr, hall r0 (by simp)]

/-- Witness for `normalized_record_keys`: the accepted record of a minimal
raw permit has exactly the six CSV fields. -/
theorem normalized_record_keys_witness :
    ([("permit_number", PyVal.str "P"), ("address", PyVal.str "A"),
      ("contractor", PyVal.none), ("issued_date", PyVal.none),
      ("permit_type", PyVal.none), ("status", PyVal.none)] : NRec).map Prod.fst
      = csvFields :=
  normalized_record_keys.1 0
    [("TypeNumber", PyVal.str "P"), ("PermitAddress", PyVal.str "A")]
    [("permit_number", PyVal.str "P"), ("address", PyVal.str "A"),
     ("contractor", PyVal.none), ("issued_date", PyVal.none),
     ("permit_type", PyVal.none), ("status", PyVal.none)]
    rfl
